import Mathlib

/-!
Shallow embedding of the SquashFS metadata decoder of `src/squashfs.cxx`
(squashdelta): the stateless layout helpers, the buffered metadata stream
reader (`MetadataReader`) and the inode decoder (`InodeReader::read`).

Machine integers are modelled as `Nat` with an explicit `% 2 ^ w` at every
operation where the C arithmetic can wrap (`uint32` in `block_count`,
`size_t` in `MetadataReader::seek`).  Struct sizes, field offsets and
format constants come from the header `squashfs.hxx`, which is not part of
`src/`; they are modelled from the spec (data model in section 3, on-disk
constants in section 6) and the published SquashFS 4.0 layout the spec
describes.
-/

/-- Modelled from the spec: `squashfs::metadata_size` from the absent header
`squashfs.hxx` — the logical metadata block size, 8 KiB. -/
def metadata_size : Nat := 8192

/-- Modelled from the spec: `squashfs::invalid_frag` from the absent header
`squashfs.hxx` — the all-ones 32-bit "no fragment" sentinel. -/
def invalid_frag : Nat := 4294967295

/-- Modelled from the spec: the inode type tags of `squashfs::inode::type`
from the absent header `squashfs.hxx`, in the format's numeric order;
`dir = 1` is the first tag and `lsocket = 14` the highest. -/
def type_dir : Nat := 1

/-- Regular-file inode type tag. -/
def type_reg : Nat := 2

/-- Symlink inode type tag. -/
def type_symlink : Nat := 3

/-- Block-device inode type tag. -/
def type_blkdev : Nat := 4

/-- Char-device inode type tag. -/
def type_chrdev : Nat := 5

/-- Fifo inode type tag. -/
def type_fifo : Nat := 6

/-- Socket inode type tag. -/
def type_socket : Nat := 7

/-- Extended-directory inode type tag. -/
def type_ldir : Nat := 8

/-- Extended regular-file inode type tag. -/
def type_lreg : Nat := 9

/-- Extended symlink inode type tag. -/
def type_lsymlink : Nat := 10

/-- Extended block-device inode type tag. -/
def type_lblkdev : Nat := 11

/-- Extended char-device inode type tag. -/
def type_lchrdev : Nat := 12

/-- Extended fifo inode type tag. -/
def type_lfifo : Nat := 13

/-- Extended socket inode type tag, the highest known tag. -/
def type_lsocket : Nat := 14

/-- Modelled from the spec: `sizeof(squashfs::inode::base)` — the common
fixed inode header (type tag, permissions, owner/group, mtime, inode
index) of the absent header `squashfs.hxx`. -/
def sizeof_base : Nat := 16

/-- Modelled from the spec: `sizeof(squashfs::inode::dir)`. -/
def sizeof_dir : Nat := 32

/-- Modelled from the spec: `sizeof(squashfs::inode::reg)`. -/
def sizeof_reg : Nat := 32

/-- Modelled from the spec: `sizeof(squashfs::inode::symlink)` — the fixed
symlink header, shared by the symlink and extended-symlink variants. -/
def sizeof_symlink : Nat := 24

/-- Modelled from the spec: `sizeof(squashfs::inode::dev)`. -/
def sizeof_dev : Nat := 24

/-- Modelled from the spec: `sizeof(squashfs::inode::ipc)`. -/
def sizeof_ipc : Nat := 20

/-- Modelled from the spec: `sizeof(squashfs::inode::ldir)` — the fixed
extended-directory header. -/
def sizeof_ldir : Nat := 40

/-- Modelled from the spec: `sizeof(squashfs::inode::lreg)`. -/
def sizeof_lreg : Nat := 56

/-- Modelled from the spec: `sizeof(squashfs::inode::ldev)`. -/
def sizeof_ldev : Nat := 28

/-- Modelled from the spec: `sizeof(squashfs::inode::lipc)`. -/
def sizeof_lipc : Nat := 24

/-- Modelled from the spec: `sizeof(struct squashfs::dir_index)` — the fixed
sub-header of one directory index entry. -/
def sizeof_dir_index : Nat := 12

/-- Width of the on-disk `le16` type. -/
def sizeof_le16 : Nat := 2

/-- Width of the on-disk `le32` type. -/
def sizeof_le32 : Nat := 4

/-- Modelled from the spec: byte offset of the `fragment` field inside
`squashfs::inode::reg` (absent header `squashfs.hxx`). -/
def reg_fragment_off : Nat := 20

/-- Modelled from the spec: byte offset of `file_size` inside
`squashfs::inode::reg`. -/
def reg_file_size_off : Nat := 28

/-- Modelled from the spec: byte offset of `symlink_size` inside
`squashfs::inode::symlink`. -/
def symlink_size_off : Nat := 20

/-- Modelled from the spec: byte offset of the 64-bit `file_size` inside
`squashfs::inode::lreg`. -/
def lreg_file_size_off : Nat := 24

/-- Modelled from the spec: byte offset of `fragment` inside
`squashfs::inode::lreg`. -/
def lreg_fragment_off : Nat := 44

/-- Modelled from the spec: byte offset of `i_count` inside
`squashfs::inode::ldir`. -/
def ldir_i_count_off : Nat := 32

/-- Modelled from the spec: byte offset of the `size` field inside
`struct squashfs::dir_index`. -/
def dir_index_size_off : Nat := 8

/-- Little-endian 16-bit load from a byte list (missing bytes read as 0,
mirroring that the decoder only loads fields inside peeked regions). -/
def le16At (d : List Nat) (i : Nat) : Nat := d.getD i 0 + 256 * d.getD (i + 1) 0

/-- Little-endian 32-bit load from a byte list. -/
def le32At (d : List Nat) (i : Nat) : Nat := le16At d i + 65536 * le16At d (i + 2)

/-- Little-endian 64-bit load from a byte list. -/
def le64At (d : List Nat) (i : Nat) : Nat := le32At d i + 4294967296 * le32At d (i + 4)

/-- `squashfs::inode::reg::block_count(block_size, block_log)` from
`src/squashfs.cxx` lines 45-58, in exact `uint32_t` arithmetic:
`blocks = file_size; if (fragment == invalid_frag) blocks += block_size - 1;
blocks >>= block_log;` — every addition/subtraction taken modulo `2 ^ 32`. -/
def block_count (file_size fragment block_size block_log : Nat) : Nat :=
  let blocks := file_size % 2 ^ 32
  let blocks :=
    if fragment = invalid_frag then
      (blocks + (block_size % 2 ^ 32 + (2 ^ 32 - 1)) % 2 ^ 32) % 2 ^ 32
    else blocks
  blocks >>> block_log

/-- `squashfs::inode::reg::inode_size(block_size, block_log)` from
`src/squashfs.cxx` lines 60-66: `sizeof(*this) + blocks * sizeof(le32)`. -/
def reg_inode_size (file_size fragment block_size block_log : Nat) : Nat :=
  sizeof_reg + block_count file_size fragment block_size block_log * sizeof_le32

/-- `squashfs::inode::symlink::inode_size()` from `src/squashfs.cxx` lines
34-37: `sizeof(*this) + symlink_size`, where `symlink_size` is a `le32`
field (hence reduced modulo `2 ^ 32`). -/
def symlink_inode_size (symlink_size : Nat) : Nat :=
  sizeof_symlink + symlink_size % 2 ^ 32

/-- `squashfs::inode::lreg::inode_size(block_size, block_log)` from
`src/squashfs.cxx` lines 80-92: the same round-up in `uint64_t`, then
`sizeof(*this) + 2 * blocks * sizeof(le16)` in `size_t` arithmetic. -/
def lreg_inode_size (file_size fragment block_size block_log : Nat) : Nat :=
  let blocks := file_size % 2 ^ 64
  let blocks :=
    if fragment = invalid_frag then
      (blocks + (block_size % 2 ^ 32 + (2 ^ 32 - 1)) % 2 ^ 32) % 2 ^ 64
    else blocks
  let blocks := blocks >>> block_log
  (sizeof_lreg + 2 * blocks * sizeof_le16 % 2 ^ 64) % 2 ^ 64

/-- Error taxonomy of the decoder (`std::runtime_error` throws of
`InodeReader::read` plus the fatal truncated-input failure the underlying
readers surface on a short `peek`). -/
inductive ReadError where
  | pastLastInode
  | invalidInodeType
  | truncated
  deriving DecidableEq

/-- State of `InodeReader` (`src/squashfs.cxx` lines 149-156), with the
metadata stream it reads modelled at the logical level the
`MetadataReader` exposes: `data` is the decompressed inode-table byte
stream and `pos` the cursor, so `f.peek(n)` demands `pos + n ≤ data.length`
and `f.seek(n)` advances `pos` by `n`. -/
structure InodeReader where
  data : List Nat
  pos : Nat
  inode_num : Nat
  no_inodes : Nat
  block_size : Nat
  block_log : Nat
  deriving DecidableEq

/-- The first `switch (in->inode_type)` of `InodeReader::read`
(`src/squashfs.cxx` lines 169-203): the compile-time fixed structural size
per type tag.  For a tag with no case, `inode_len` stays uninitialized in
the source and is never used (the type check throws first); the model
returns 0 there. -/
def fixedInodeLen (ty : Nat) : Nat :=
  if ty = type_dir then sizeof_dir
  else if ty = type_reg then sizeof_reg
  else if ty = type_symlink ∨ ty = type_lsymlink then sizeof_symlink
  else if ty = type_blkdev ∨ ty = type_chrdev then sizeof_dev
  else if ty = type_fifo ∨ ty = type_socket then sizeof_ipc
  else if ty = type_ldir then sizeof_ldir
  else if ty = type_lreg then sizeof_lreg
  else if ty = type_lblkdev ∨ ty = type_lchrdev then sizeof_ldev
  else if ty = type_lfifo ∨ ty = type_lsocket then sizeof_lipc
  else 0

/-- The second `switch` of `InodeReader::read` (`src/squashfs.cxx` lines
211-247): the type-specific dynamic record length, computed from fields of
the record at the cursor.  For `ldir` this is only the pre-reservation
`inode_len += i_count * sizeof(dir_index)`; the index-chain loop follows. -/
def dynInodeLen (r : InodeReader) : Nat :=
  if le16At r.data r.pos = type_reg then
    reg_inode_size (le32At r.data (r.pos + reg_file_size_off))
      (le32At r.data (r.pos + reg_fragment_off)) r.block_size r.block_log
  else if le16At r.data r.pos = type_symlink ∨ le16At r.data r.pos = type_lsymlink then
    symlink_inode_size (le32At r.data (r.pos + symlink_size_off))
  else if le16At r.data r.pos = type_lreg then
    lreg_inode_size (le64At r.data (r.pos + lreg_file_size_off))
      (le32At r.data (r.pos + lreg_fragment_off)) r.block_size r.block_log
  else if le16At r.data r.pos = type_ldir then
    fixedInodeLen (le16At r.data r.pos) +
      le16At r.data (r.pos + ldir_i_count_off) * sizeof_dir_index
  else fixedInodeLen (le16At r.data r.pos)

/-- The extended-directory index-chain loop of `InodeReader::read`
(`src/squashfs.cxx` lines 258-272): iterate `i_count` times; each
iteration reads the entry's `size` sub-field at the running `offset`, adds
`size + 1` to `inode_len`, advances `offset` by the whole entry, and
re-peeks the grown `inode_len` (modelled as the bounds test against the
stream length, failing with the fatal truncated-input error).  `base` is
the absolute stream position of the record. -/
def ldirLoop (d : List Nat) (base : Nat) : Nat → Nat → Nat → Except ReadError Nat
  | 0, inode_len, _ => .ok inode_len
  | count + 1, inode_len, offset =>
    if base + (inode_len + le32At d (base + offset + dir_index_size_off) + 1) ≤
        d.length then
      ldirLoop d base count
        (inode_len + le32At d (base + offset + dir_index_size_off) + 1)
        (offset + le32At d (base + offset + dir_index_size_off) + 1 + sizeof_dir_index)
    else .error .truncated

/-- `InodeReader::read()` (`src/squashfs.cxx` lines 158-280).  In order:
the index bound check `inode_num >= no_inodes + 1`; `peek(sizeof(base))`
and the type tag load; the fixed-size switch and the invalid-type check;
`peek` of the fixed size; the dynamic-size switch and `peek` of that size;
the `ldir` index-chain loop; finally `seek(inode_len)` and `++inode_num`.
Returns the record's bytes and the advanced reader; every throw of the
source is an `.error` that leaves the reader unchanged (no seek has
happened, `inode_num` is not incremented). -/
def InodeReader.read (r : InodeReader) : Except ReadError (List Nat × InodeReader) :=
  if r.no_inodes + 1 ≤ r.inode_num then .error .pastLastInode
  else if r.pos + sizeof_base ≤ r.data.length then
    if le16At r.data r.pos = 0 ∨ type_lsocket < le16At r.data r.pos then
      .error .invalidInodeType
    else if r.pos + fixedInodeLen (le16At r.data r.pos) ≤ r.data.length then
      if r.pos + dynInodeLen r ≤ r.data.length then
        match (if le16At r.data r.pos = type_ldir then
                ldirLoop r.data r.pos (le16At r.data (r.pos + ldir_i_count_off))
                  (dynInodeLen r) sizeof_ldir
              else .ok (dynInodeLen r)) with
        | .error e => .error e
        | .ok len =>
          .ok ((r.data.drop r.pos).take len,
            { r with pos := r.pos + len, inode_num := r.inode_num + 1 })
      else .error .truncated
    else .error .truncated
  else .error .truncated

/-- Stream position after a decode: `some` of the new cursor when `read`
succeeds, `none` when it fails. -/
def readResultPos (x : Except ReadError (List Nat × InodeReader)) : Option Nat :=
  match x with
  | .ok (_, r) => some r.pos
  | .error _ => none

/-- decoder state for the C1 counterexample: one declared inode, one inode
already produced (`inode_num = no_inodes = 1`), with a well-formed fifo
record (type tag 6, `sizeof(ipc)` = 20 bytes) next on the stream. -/
def c1state : InodeReader :=
  { data := 6 :: List.replicate 19 0, pos := 0, inode_num := 1, no_inodes := 1,
    block_size := 131072, block_log := 17 }

/-- Bounds-check ledger of the extended-directory index-chain loop: it
re-runs the loop of `ldirLoop` and records, for each iteration, whether
the `size` sub-field about to be read lies inside the `inode_len` bytes
guaranteed by the most recent peek — that is, whether
`offset + sizeof(dir_index) ≤ inode_len` holds when the iteration starts. -/
def ldirLoopSafe (d : List Nat) (base : Nat) : Nat → Nat → Nat → Bool
  | 0, _, _ => true
  | count + 1, inode_len, offset =>
    decide (offset + sizeof_dir_index ≤ inode_len) &&
      ldirLoopSafe d base count
        (inode_len + le32At d (base + offset + dir_index_size_off) + 1)
        (offset + le32At d (base + offset + dir_index_size_off) + 1 + sizeof_dir_index)

/-- State of `MetadataReader` (`src/squashfs.cxx` lines 94-147).  The
working array `char buf[...]` is the function `buf`; `bufp` is the read
cursor as an offset into it (the source's `bufp - buf`) and `buf_filled`
the count of valid bytes at the cursor.  `input` models the underlying
file: the decompressed (or raw-copied) payloads of the stored metadata
blocks not yet pulled, in order — each `poll_data` consumes exactly one.
`pos` is ghost state: the logical stream offset of the cursor, advanced
only by `seek`, used to express that `peek` never moves the cursor. -/
structure MetadataReader where
  buf : Nat → Nat
  bufp : Nat
  buf_filled : Nat
  input : List (List Nat)
  pos : Nat

/-- The buffer-shift test of `poll_data` (`src/squashfs.cxx` line 109):
`writep - buf > squashfs::metadata_size` with `writep = bufp + buf_filled`. -/
def shiftCond (r : MetadataReader) : Bool :=
  decide (metadata_size < r.bufp + r.buf_filled)

/-- The compaction `memcpy(buf, bufp, buf_filled); bufp = buf;` of
`poll_data` (`src/squashfs.cxx` lines 113-114), as a simultaneous copy of
the valid region back to the buffer origin. -/
def compactBuf (r : MetadataReader) : MetadataReader :=
  { r with
    buf := fun i => if i < r.buf_filled then r.buf (r.bufp + i) else r.buf i,
    bufp := 0 }

/-- Depositing one pulled block's payload at the write position
(`src/squashfs.cxx` lines 118-132): both the `memcpy` of an uncompressed
block and the `decompress` into `writep` leave `blk` at
`bufp + buf_filled` and grow `buf_filled` by its length. -/
def writeBlock (r : MetadataReader) (blk : List Nat) : MetadataReader :=
  { r with
    buf := fun i =>
      if r.bufp + r.buf_filled ≤ i ∧ i < r.bufp + r.buf_filled + blk.length then
        blk.getD (i - (r.bufp + r.buf_filled)) 0
      else r.buf i,
    buf_filled := r.buf_filled + blk.length }

/-- `MetadataReader::poll_data()` (`src/squashfs.cxx` lines 103-133): pull
the next stored block (failing fatally when the file has none left), shift
the buffer when the write position is past `metadata_size`, then deposit
the block's payload at the write position. -/
def MetadataReader.poll_data (r : MetadataReader) : Option MetadataReader :=
  match r.input with
  | [] => none
  | blk :: rest =>
    let r1 : MetadataReader := { r with input := rest }
    some (writeBlock (if shiftCond r1 then compactBuf r1 else r1) blk)

/-- The `while (buf_filled < length) poll_data();` loop of
`MetadataReader::peek`, by recursion on an upper bound of its iteration
count (each pull consumes one stored block, so the number of remaining
blocks bounds the loop). -/
def peekFuel : Nat → MetadataReader → Nat → Option MetadataReader
  | 0, r, length => if r.buf_filled < length then none else some r
  | fuel + 1, r, length =>
    if r.buf_filled < length then
      match r.poll_data with
      | none => none
      | some r2 => peekFuel fuel r2 length
    else some r

/-- `MetadataReader::peek(length)` (`src/squashfs.cxx` lines 135-141):
poll until `length` valid bytes sit at the cursor, then return the reader
whose cursor view is the borrowed `bufp` pointer the source returns
(`none` is the fatal truncated-input failure). -/
def MetadataReader.peek (r : MetadataReader) (length : Nat) : Option MetadataReader :=
  peekFuel r.input.length r length

/-- `MetadataReader::seek(length)` (`src/squashfs.cxx` lines 143-147):
`bufp += length; buf_filled -= length;` with no bounds check of its own;
`buf_filled` is a `size_t`, so the subtraction is taken modulo `2 ^ 64`. -/
def MetadataReader.seek (r : MetadataReader) (length : Nat) : MetadataReader :=
  { r with
    bufp := r.bufp + length,
    buf_filled := (r.buf_filled + (2 ^ 64 - length % 2 ^ 64)) % 2 ^ 64,
    pos := r.pos + length }

/-- The first `n` bytes of the borrowed view `peek` returns: the buffer
contents starting at the cursor. -/
def viewBytes (r : MetadataReader) (n : Nat) : List Nat :=
  (List.range n).map fun i => r.buf (r.bufp + i)

/-- Disjointness of the compaction copy's regions: destination
`[0, buf_filled)` and source `[bufp, bufp + buf_filled)` do not overlap
iff the copy is empty or the cursor offset is at least `buf_filled`. -/
def compactRegionsDisjoint (r : MetadataReader) : Prop :=
  r.buf_filled = 0 ∨ r.buf_filled ≤ r.bufp

def c2wit0 : MetadataReader :=
  { buf := fun _ => 0, bufp := 0, buf_filled := 0, input := [[5]], pos := 0 }

/-- Fresh reader whose first stored blocks decompress to 8192, 1 and 1
bytes: the prefix of a metadata stream that drives the buffer past
`metadata_size` without ever moving the cursor. -/
def c2r0 : MetadataReader :=
  { buf := fun _ => 0, bufp := 0, buf_filled := 0,
    input := [List.replicate 8192 0, [0], [0]], pos := 0 }

/-- Reader state of the C2 counterexample: cursor still at the buffer
origin, 8193 valid bytes at it, one stored block left. -/
def c2state : MetadataReader :=
  { buf := fun _ => 0, bufp := 0, buf_filled := 8193, input := [[0]], pos := 0 }

def c8wit0 : MetadataReader :=
  { buf := fun _ => 0, bufp := 0, buf_filled := 0, input := [[7, 7, 7]], pos := 0 }

def c6wit0 : MetadataReader :=
  { buf := fun _ => 0, bufp := 0, buf_filled := 0, input := [[1, 2, 3]], pos := 0 }

def c9wit0 : MetadataReader :=
  { buf := fun _ => 0, bufp := 0, buf_filled := 0, input := [], pos := 0 }

/-- claim C3 (corrected), counterexample: the claim as stated fails on the
code.  At `file_size = 2 ^ 32 - 1`, `block_size = 4096`, `block_log = 12`
and no fragment, the `uint32_t` round-up `blocks += block_size - 1` wraps
modulo `2 ^ 32`, so `block_count` returns `0` while
`ceil(file_size / block_size) = (file_size + block_size - 1) / block_size`
is `1048576`. -/
theorem c3_counterexample :
    block_count 4294967295 invalid_frag 4096 12 = 0 ∧
    (4294967295 + 4096 - 1) / 4096 = 1048576 ∧
    ¬ block_count 4294967295 invalid_frag 4096 12 =
        (4294967295 + 4096 - 1) / 4096 := by
  decide

/-- claim C3 (amended): for a superblock-consistent block size
(`block_size = 2 ^ block_log`, `block_log < 32`) and a 32-bit `file_size`,
if additionally the round-up `file_size + block_size - 1` does not overflow
`uint32`, then `block_count` is `ceil(file_size / block_size)` when the
fragment field is the invalid-fragment sentinel, and it is the plain floor
division `file_size >> block_log = file_size / block_size` for any other
fragment value. -/
theorem c3_amended (file_size fragment block_size block_log : Nat)
    (hbl : block_log < 32) (hbs : block_size = 2 ^ block_log)
    (hfs : file_size < 2 ^ 32) :
    (fragment = invalid_frag → file_size + block_size - 1 < 2 ^ 32 →
      block_count file_size fragment block_size block_log =
        (file_size + block_size - 1) / block_size) ∧
    (fragment ≠ invalid_frag →
      block_count file_size fragment block_size block_log =
        file_size / block_size) := by
  have hbs0 : 0 < block_size := hbs ▸ Nat.pos_pow_of_pos block_log (by norm_num)
  have hbs32 : block_size < 2 ^ 32 := by
    rw [hbs]
    exact Nat.pow_lt_pow_right (by norm_num) hbl
  constructor
  · intro hfrag hov
    have h1 : block_size % 2 ^ 32 = block_size := Nat.mod_eq_of_lt hbs32
    have h2 : (block_size % 2 ^ 32 + (2 ^ 32 - 1)) % 2 ^ 32 = block_size - 1 := by
      rw [h1]
      have h2a : block_size + (2 ^ 32 - 1) = (block_size - 1) + 2 ^ 32 := by omega
      rw [h2a, Nat.add_mod_right]
      exact Nat.mod_eq_of_lt (by omega)
    have h3 : (file_size % 2 ^ 32 + (block_size - 1)) % 2 ^ 32 =
        file_size + block_size - 1 := by
      rw [Nat.mod_eq_of_lt hfs]
      have h3a : file_size + (block_size - 1) = file_size + block_size - 1 := by
        omega
      rw [h3a]
      exact Nat.mod_eq_of_lt hov
    simp only [block_count, if_pos hfrag, h2, h3, Nat.shiftRight_eq_div_pow]
    rw [hbs]
  · intro hfrag
    simp only [block_count, if_neg hfrag, Nat.mod_eq_of_lt hfs,
      Nat.shiftRight_eq_div_pow]
    rw [hbs]

/-- claim C3, witness: at `file_size = 5000`, `block_size = 4096`,
`block_log = 12`, the fragment-less branch yields the rounded-up count `2`
and the with-fragment branch the floor count `1`. -/
theorem c3_amended_witness :
    block_count 5000 invalid_frag 4096 12 = (5000 + 4096 - 1) / 4096 ∧
    block_count 5000 7 4096 12 = 5000 / 4096 :=
  ⟨(c3_amended 5000 invalid_frag 4096 12 (by decide) (by decide) (by decide)).1
      rfl (by decide),
    (c3_amended 5000 7 4096 12 (by decide) (by decide) (by decide)).2 (by decide)⟩

/-- claim C7 (confirmed): for every value of the embedded 32-bit
`symlink_size` field, `squashfs::inode::symlink::inode_size()` equals the
fixed symlink header size plus that field. -/
theorem c7_symlink_inode_size (n : Nat) (h : n < 2 ^ 32) :
    symlink_inode_size n = sizeof_symlink + n := by
  unfold symlink_inode_size
  rw [Nat.mod_eq_of_lt h]

/-- claim C7, witness: the 16-bit boundary value 65535. -/
theorem c7_witness : symlink_inode_size 65535 = sizeof_symlink + 65535 :=
  c7_symlink_inode_size 65535 (by decide)

/-- claim C1 (amended): `InodeReader::read` fails with the out-of-range
error exactly at the source's boundary `inode_num >= no_inodes + 1`, i.e.
only once the inode index is strictly beyond the declared count, before
any decoding step and producing no inode. -/
theorem c1_amended (r : InodeReader) (h : r.no_inodes + 1 ≤ r.inode_num) :
    InodeReader.read r = .error .pastLastInode := by
  unfold InodeReader.read
  rw [if_pos h]

/-- claim C1 (corrected), counterexample: in a state where all declared
inodes have already been produced (`inode_num = no_inodes`), `read()` does
not fail — the guard `inode_num >= no_inodes + 1` lets it run, and it
decodes and returns one more inode, advancing the stream by the record
size. -/
theorem c1_counterexample :
    c1state.inode_num = c1state.no_inodes ∧
    readResultPos (InodeReader.read c1state) = some sizeof_ipc := by
  constructor
  · rfl
  · rfl

/-- claim C1, witness for the amended theorem: at `inode_num = 2`,
`no_inodes = 1` the call fails with the out-of-range error. -/
theorem c1_amended_witness :
    InodeReader.read
        { data := [], pos := 0, inode_num := 2, no_inodes := 1,
          block_size := 131072, block_log := 17 } =
      .error .pastLastInode :=
  c1_amended _ (by decide)

/-- claim C4 (confirmed): whenever the next record's type tag is 0 or
greater than the highest known tag (`lsocket`), and the call is not
already rejected by the index bound, `read()` fails with the
malformed-record error.  The model returns the error without constructing
a successor state: in the source the `throw` happens before `f.seek` and
before `++inode_num`, so neither the stream cursor nor the inode index is
advanced by the failing call. -/
theorem c4_invalid_type (r : InodeReader)
    (hn : r.inode_num ≤ r.no_inodes)
    (hd : r.pos + sizeof_base ≤ r.data.length)
    (ht : le16At r.data r.pos = 0 ∨ type_lsocket < le16At r.data r.pos) :
    InodeReader.read r = .error .invalidInodeType := by
  unfold InodeReader.read
  rw [if_neg (by omega), if_pos hd, if_pos ht]

/-- claim C4, witness: a zero type tag with sixteen stream bytes
available. -/
theorem c4_witness :
    InodeReader.read
        { data := List.replicate 16 0, pos := 0, inode_num := 0, no_inodes := 5,
          block_size := 131072, block_log := 17 } =
      .error .invalidInodeType :=
  c4_invalid_type _ (by decide) (by decide) (by decide)

/-- claim C10 (confirmed): if on entry the running `inode_len` pre-reserves
one `sizeof(dir_index)` per remaining entry (`offset + count *
sizeof(dir_index) ≤ inode_len`), then every iteration of the index-chain
loop reads the entry's `size` sub-field within the most recently peeked
`inode_len` bytes.  `read()` enters the loop with `offset = sizeof(ldir)`
and `inode_len = sizeof(ldir) + i_count * sizeof(dir_index)` (plus any
`i_count`-independent surplus), so the entry condition holds there. -/
theorem c10_ldir_loop_inbounds (d : List Nat) (base count inode_len offset : Nat)
    (h : offset + count * sizeof_dir_index ≤ inode_len) :
    ldirLoopSafe d base count inode_len offset = true := by
  simp only [sizeof_dir_index] at h ⊢
  induction count generalizing inode_len offset with
  | zero => rfl
  | succ c ih =>
    simp only [ldirLoopSafe, sizeof_dir_index, Bool.and_eq_true, decide_eq_true_eq]
    exact ⟨by omega, ih _ _ (by omega)⟩

/-- claim C10, witness: the loop entry state of `read()` for three index
entries. -/
theorem c10_witness :
    ldirLoopSafe [] 0 3 (sizeof_ldir + 3 * sizeof_dir_index) sizeof_ldir = true :=
  c10_ldir_loop_inbounds [] 0 3 (sizeof_ldir + 3 * sizeof_dir_index) sizeof_ldir
    (by decide)

/-- One successful pull grows the valid-byte count, consumes exactly one
stored block, leaves the ghost cursor position unchanged, and preserves
every byte already visible at the cursor. -/
theorem poll_data_props (r r2 : MetadataReader) (h : r.poll_data = some r2) :
    r.buf_filled ≤ r2.buf_filled ∧ r2.pos = r.pos ∧
    r2.input.length + 1 = r.input.length ∧
    ∀ i, i < r.buf_filled → r2.buf (r2.bufp + i) = r.buf (r.bufp + i) := by
  cases hr : r.input with
  | nil =>
    rw [MetadataReader.poll_data, hr] at h
    exact absurd h (by simp)
  | cons blk rest =>
    rw [MetadataReader.poll_data, hr] at h
    injection h with h
    subst h
    by_cases hs : shiftCond { r with input := rest } = true
    · rw [if_pos hs]
      refine ⟨?_, rfl, by simp [hr, writeBlock, compactBuf], ?_⟩
      · simp [writeBlock, compactBuf]
      · intro i hi
        simp only [writeBlock, compactBuf]
        rw [if_neg (by simp; omega), if_pos (by simpa using hi)]
        simp
    · rw [if_neg hs]
      refine ⟨?_, rfl, by simp [hr, writeBlock], ?_⟩
      · simp [writeBlock]
      · intro i hi
        simp only [writeBlock]
        rw [if_neg (by simp; omega)]

theorem peekFuel_noPoll (fuel : Nat) (r : MetadataReader) (length : Nat)
    (h : ¬ r.buf_filled < length) : peekFuel fuel r length = some r := by
  cases fuel with
  | zero => simp [peekFuel, h]
  | succ f => simp [peekFuel, h]

theorem peekFuel_props (fuel : Nat) :
    ∀ (r : MetadataReader) (length : Nat) (r2 : MetadataReader),
      peekFuel fuel r length = some r2 →
      length ≤ r2.buf_filled ∧ r2.pos = r.pos ∧ r.buf_filled ≤ r2.buf_filled ∧
      ∀ i, i < r.buf_filled → r2.buf (r2.bufp + i) = r.buf (r.bufp + i) := by
  induction fuel with
  | zero =>
    intro r length r2 h
    rw [peekFuel] at h
    by_cases hlt : r.buf_filled < length
    · rw [if_pos hlt] at h
      exact absurd h (by simp)
    · rw [if_neg hlt] at h
      injection h with h
      subst h
      exact ⟨by omega, rfl, Nat.le_refl _, fun i _ => rfl⟩
  | succ f ih =>
    intro r length r2 h
    rw [peekFuel] at h
    by_cases hlt : r.buf_filled < length
    · rw [if_pos hlt] at h
      cases hp : r.poll_data with
      | none => rw [hp] at h; exact absurd h (by simp)
      | some rm =>
        rw [hp] at h
        obtain ⟨hf1, hf2, hf3, hf4⟩ := ih rm length r2 h
        obtain ⟨hp1, hp2, _, hp4⟩ := poll_data_props r rm hp
        refine ⟨hf1, hf2.trans hp2, Nat.le_trans hp1 hf3, fun i hi => ?_⟩
        rw [hf4 i (Nat.lt_of_lt_of_le hi hp1), hp4 i hi]
    · rw [if_neg hlt] at h
      injection h with h
      subst h
      exact ⟨by omega, rfl, Nat.le_refl _, fun i _ => rfl⟩

/-- claim C8 (confirmed): when `peek(length)` returns, at least `length`
valid bytes are buffered starting at the read cursor
(`buf_filled >= length`), and the logical cursor position is unchanged —
`peek` never advances it. -/
theorem c8_peek (r : MetadataReader) (length : Nat) (r2 : MetadataReader)
    (h : r.peek length = some r2) :
    length ≤ r2.buf_filled ∧ r2.pos = r.pos :=
  ⟨(peekFuel_props r.input.length r length r2 h).1,
    (peekFuel_props r.input.length r length r2 h).2.1⟩

/-- claim C6 (confirmed): `peek` is idempotent.  After `peek(n)` succeeds,
a `peek(n')` with `n' ≤ n` (including `n' = n`) performs no pull and
returns the very same state, so the two returned views agree on their
leading `n'` bytes; moreover the block pulls and compactions done by the
first `peek` do not change any byte that was already visible at the
cursor. -/
theorem c6_peek_idempotent (r : MetadataReader) (n nn : Nat) (r1 : MetadataReader)
    (h : r.peek n = some r1) (hle : nn ≤ n) :
    r1.peek nn = some r1 ∧
    (viewBytes r1 n).take nn = viewBytes r1 nn ∧
    ∀ i, i < r.buf_filled → r1.buf (r1.bufp + i) = r.buf (r.bufp + i) := by
  obtain ⟨hf1, _, _, hf4⟩ := peekFuel_props r.input.length r n r1 h
  refine ⟨peekFuel_noPoll _ _ _ (by omega), ?_, hf4⟩
  rw [viewBytes, viewBytes, ← List.map_take, List.take_range, Nat.min_eq_left hle]

/-- claim C9 (confirmed): `seek(length)` has no bounds check — it
unconditionally advances the cursor — and when `length > buf_filled` the
`size_t` subtraction `buf_filled -= length` wraps modulo `2 ^ 64` to the
huge value `buf_filled + 2 ^ 64 - length`, after which every `peek` of any
length up to that value returns immediately without pulling a block. -/
theorem c9_seek_wraps (r : MetadataReader) (length : Nat)
    (h1 : r.buf_filled < length) (h2 : length < 2 ^ 64) :
    (r.seek length).bufp = r.bufp + length ∧
    (r.seek length).pos = r.pos + length ∧
    (r.seek length).buf_filled = r.buf_filled + (2 ^ 64 - length) ∧
    ∀ n, n ≤ (r.seek length).buf_filled →
      (r.seek length).peek n = some (r.seek length) := by
  have hb : (r.seek length).buf_filled = r.buf_filled + (2 ^ 64 - length) := by
    simp only [MetadataReader.seek]
    rw [Nat.mod_eq_of_lt h2, Nat.mod_eq_of_lt (by omega)]
  exact ⟨rfl, rfl, hb, fun n hn => peekFuel_noPoll _ _ _ (by omega)⟩

/-- claim C2 (amended): `poll_data` compacts the buffer exactly when the
write position `bufp + buf_filled` (the source's `writep - buf`) has
advanced past `metadata_size` — not the read cursor — and when the
compaction copy runs with `buf_filled ≤ bufp`, its source and destination
regions do not overlap. -/
theorem c2_amended (r : MetadataReader) (blk : List Nat) (rest : List (List Nat))
    (h : r.input = blk :: rest) :
    (shiftCond r = true ↔ metadata_size < r.bufp + r.buf_filled) ∧
    (shiftCond r = true →
      r.poll_data = some (writeBlock (compactBuf { r with input := rest }) blk)) ∧
    (shiftCond r = false →
      r.poll_data = some (writeBlock { r with input := rest } blk)) ∧
    (shiftCond r = true → r.buf_filled ≤ r.bufp → compactRegionsDisjoint r) := by
  have hsc : shiftCond { r with input := rest } = shiftCond r := rfl
  refine ⟨by simp [shiftCond], ?_, ?_, fun _ hd => Or.inr hd⟩
  · intro hs
    simp only [MetadataReader.poll_data, h]
    rw [hsc, hs, if_pos rfl]
  · intro hs
    simp only [MetadataReader.poll_data, h]
    rw [hsc, hs, if_neg (by simp)]

/-- claim C2, witness for the amended theorem: a fresh one-block reader
takes the no-shift branch. -/
theorem c2_amended_witness :
    (shiftCond c2wit0 = true ↔ metadata_size < c2wit0.bufp + c2wit0.buf_filled) ∧
    (shiftCond c2wit0 = true →
      c2wit0.poll_data =
        some (writeBlock (compactBuf { c2wit0 with input := ([] : List (List Nat)) })
          [5])) ∧
    (shiftCond c2wit0 = false →
      c2wit0.poll_data = some (writeBlock { c2wit0 with input := ([] : List (List Nat)) } [5])) ∧
    (shiftCond c2wit0 = true → c2wit0.buf_filled ≤ c2wit0.bufp →
      compactRegionsDisjoint c2wit0) :=
  c2_amended c2wit0 [5] [] rfl

/-- `c2state`'s observable fields are reached from the fresh reader `c2r0`
by a single `peek(8193)` (which pulls the 8192-byte and 1-byte blocks and
never compacts): compaction with an origin cursor is a state the reader
actually reaches. -/
theorem c2state_reachable :
    (c2r0.peek 8193).map (fun s => (s.bufp, s.buf_filled, s.input)) =
      some (c2state.bufp, c2state.buf_filled, c2state.input) := by
  simp only [c2r0, c2state]
  generalize hB : List.replicate 8192 (0 : Nat) = B
  have hlB : B.length = 8192 := by rw [← hB, List.length_replicate]
  simp [MetadataReader.peek, peekFuel, MetadataReader.poll_data, writeBlock,
    compactBuf, shiftCond, metadata_size, hlB]

/-- claim C2 (corrected), counterexample: at the reachable state
`c2state` (cursor at the buffer origin, 8193 valid bytes) the shift
condition holds and the next pull compacts, although the read cursor has
not advanced past `metadata_size` at all — and the copy's regions
(`[0, 8193)` to `[0, 8193)`) overlap, refuting both halves of the claim
as stated. -/
theorem c2_counterexample :
    shiftCond c2state = true ∧ c2state.bufp = 0 ∧
    ¬ metadata_size < c2state.bufp ∧
    (c2state.poll_data).isSome = true ∧
    ¬ compactRegionsDisjoint c2state := by
  refine ⟨by decide, by decide, by decide, by decide, ?_⟩
  rw [compactRegionsDisjoint]
  decide

/-- claim C8, witness: a fresh reader with one three-byte block satisfies
`peek(2)`. -/
theorem c8_witness :
    2 ≤ ((c8wit0.peek 2).getD c8wit0).buf_filled ∧
    ((c8wit0.peek 2).getD c8wit0).pos = c8wit0.pos :=
  c8_peek c8wit0 2 ((c8wit0.peek 2).getD c8wit0) rfl

/-- claim C6, witness: `peek(2)` then `peek(1)` on a one-block reader. -/
theorem c6_witness :
    ((c6wit0.peek 2).getD c6wit0).peek 1 = some ((c6wit0.peek 2).getD c6wit0) ∧
    (viewBytes ((c6wit0.peek 2).getD c6wit0) 2).take 1 =
      viewBytes ((c6wit0.peek 2).getD c6wit0) 1 :=
  ⟨(c6_peek_idempotent c6wit0 2 1 ((c6wit0.peek 2).getD c6wit0) rfl (by decide)).1,
    (c6_peek_idempotent c6wit0 2 1 ((c6wit0.peek 2).getD c6wit0) rfl (by decide)).2.1⟩

/-- claim C9, witness: `seek(1)` on an empty fresh reader wraps
`buf_filled` to `2 ^ 64 - 1` and `peek(5)` then succeeds immediately. -/
theorem c9_witness :
    (c9wit0.seek 1).bufp = c9wit0.bufp + 1 ∧
    (c9wit0.seek 1).pos = c9wit0.pos + 1 ∧
    (c9wit0.seek 1).buf_filled = c9wit0.buf_filled + (2 ^ 64 - 1) ∧
    (c9wit0.seek 1).peek 5 = some (c9wit0.seek 1) :=
  ⟨(c9_seek_wraps c9wit0 1 (by decide) (by decide)).1,
    (c9_seek_wraps c9wit0 1 (by decide) (by decide)).2.1,
    (c9_seek_wraps c9wit0 1 (by decide) (by decide)).2.2.1,
    (c9_seek_wraps c9wit0 1 (by decide) (by decide)).2.2.2 5 (by decide)⟩
